import Mathlib

/-!
Verification of the ddh log/db-ops analysis pipeline.

Text is modelled as `List Char` (a Python `str` is a sequence of unicode code
points; `len` counts code points and `encode('utf-8')` length is the sum of the
characters' UTF-8 sizes, which `Char.utf8Size` gives exactly).  String literals
are written with `String.toList`.
-/

namespace DDH

/-- Python `str.strip()` on the usual whitespace characters: drop whitespace
from both ends of the string. -/
def pyStrip (s : List Char) : List Char :=
  ((s.dropWhile Char.isWhitespace).reverse.dropWhile Char.isWhitespace).reverse

/-- UTF-8 byte length of a string, as computed by `len(line.encode('utf-8'))`. -/
def byteLen (s : List Char) : Nat :=
  (s.map Char.utf8Size).sum

/-- Python `logs.split('\n')`: split a string at every newline.  The result is
always nonempty; splitting the empty string gives `[""]`. -/
def splitLines : List Char → List (List Char)
  | [] => [[]]
  | c :: cs =>
    if c = '\n' then [] :: splitLines cs
    else
      match splitLines cs with
      | [] => [[c]]
      | l :: ls => (c :: l) :: ls

/-- Python `'\n'.join(lines)`. -/
def joinLines : List (List Char) → List Char
  | [] => []
  | [l] => l
  | l :: m :: ms => l ++ '\n' :: joinLines (m :: ms)

theorem joinLines_cons_cons (l m : List Char) (ms : List (List Char)) :
    joinLines (l :: m :: ms) = l ++ '\n' :: joinLines (m :: ms) := rfl

/-- Sum of the UTF-8 byte lengths of a group of lines (the byte size of the
joined chunk not counting the newline separators between its lines). -/
def linesBytes (g : List (List Char)) : Nat :=
  (g.map byteLen).sum

theorem splitLines_ne_nil (s : List Char) : splitLines s ≠ [] := by
  match s with
  | [] => simp [splitLines]
  | c :: cs =>
    rw [splitLines]
    by_cases h : c = '\n'
    · simp [h]
    · simp only [if_neg h]
      cases splitLines cs <;> simp

theorem joinLines_splitLines (s : List Char) : joinLines (splitLines s) = s := by
  induction s with
  | nil => rfl
  | cons c cs ih =>
    rw [splitLines]
    by_cases h : c = '\n'
    · subst h
      simp only [if_pos rfl]
      have hne := splitLines_ne_nil cs
      match hsp : splitLines cs with
      | [] => exact absurd hsp hne
      | l :: ls =>
        rw [hsp] at ih
        show joinLines ([] :: l :: ls) = '\n' :: cs
        rw [joinLines_cons_cons]
        simpa using ih
    · simp only [if_neg h]
      have hne := splitLines_ne_nil cs
      match hsp : splitLines cs with
      | [] => exact absurd hsp hne
      | [l] =>
        rw [hsp] at ih
        show joinLines [c :: l] = c :: cs
        simp only [joinLines] at ih ⊢
        rw [ih]
      | l :: l2 :: ls =>
        rw [hsp] at ih
        show joinLines ((c :: l) :: l2 :: ls) = c :: cs
        rw [joinLines_cons_cons] at ih ⊢
        simpa using ih

theorem newline_not_mem_splitLines (s : List Char) :
    ∀ l ∈ splitLines s, '\n' ∉ l := by
  induction s with
  | nil => simp [splitLines]
  | cons c cs ih =>
    intro l hl
    rw [splitLines] at hl
    by_cases h : c = '\n'
    · rw [if_pos h] at hl
      rcases List.mem_cons.mp hl with h1 | h1
      · simp [h1]
      · exact ih l h1
    · rw [if_neg h] at hl
      have hne := splitLines_ne_nil cs
      match hsp : splitLines cs with
      | [] => exact absurd hsp hne
      | m :: ms =>
        rw [hsp] at hl
        rcases List.mem_cons.mp hl with h1 | h1
        · subst h1
          intro hmem
          rcases List.mem_cons.mp hmem with h2 | h2
          · exact h h2.symm
          · exact ih m (by rw [hsp]; exact List.mem_cons_self m ms) h2
        · exact ih l (by rw [hsp]; exact List.mem_cons_of_mem m h1)

theorem splitLines_no_newline (l : List Char) (h : '\n' ∉ l) :
    splitLines l = [l] := by
  induction l with
  | nil => rfl
  | cons c cs ih =>
    have hc : c ≠ '\n' := fun he => h (by simp [he])
    have hcs : '\n' ∉ cs := fun hm => h (List.mem_cons_of_mem c hm)
    rw [splitLines, if_neg hc, ih hcs]

theorem splitLines_append_newline (l rest : List Char) (h : '\n' ∉ l) :
    splitLines (l ++ '\n' :: rest) = l :: splitLines rest := by
  induction l with
  | nil => simp [splitLines]
  | cons c cs ih =>
    have hc : c ≠ '\n' := fun he => h (by simp [he])
    have hcs : '\n' ∉ cs := fun hm => h (List.mem_cons_of_mem c hm)
    rw [List.cons_append, splitLines, if_neg hc, ih hcs]

theorem joinLines_append (g h : List (List Char)) (hg : g ≠ []) (hh : h ≠ []) :
    joinLines (g ++ h) = joinLines g ++ '\n' :: joinLines h := by
  induction g with
  | nil => exact absurd rfl hg
  | cons l g' ih =>
    match g' with
    | [] =>
      match h with
      | [] => exact absurd rfl hh
      | m :: hs =>
        show joinLines (l :: m :: hs) = joinLines [l] ++ '\n' :: joinLines (m :: hs)
        rw [joinLines_cons_cons]
        rfl
    | l2 :: gs =>
      have hrec : joinLines ((l2 :: gs) ++ h) = joinLines (l2 :: gs) ++ '\n' :: joinLines h :=
        ih (by simp)
      show joinLines ((l :: l2 :: gs) ++ h) = joinLines (l :: l2 :: gs) ++ '\n' :: joinLines h
      have h1 : (l :: l2 :: gs) ++ h = l :: ((l2 :: gs) ++ h) := rfl
      have h2 : (l2 :: gs) ++ h = l2 :: (gs ++ h) := rfl
      rw [h1, h2, joinLines_cons_cons, joinLines_cons_cons, ← h2, hrec]
      simp

theorem splitLines_joinLines (g : List (List Char)) (hg : g ≠ [])
    (hnl : ∀ l ∈ g, '\n' ∉ l) : splitLines (joinLines g) = g := by
  induction g with
  | nil => exact absurd rfl hg
  | cons l g' ih =>
    match g' with
    | [] =>
      show splitLines (joinLines [l]) = [l]
      rw [joinLines]
      exact splitLines_no_newline l (hnl l (by simp))
    | l2 :: gs =>
      rw [joinLines_cons_cons]
      rw [splitLines_append_newline l _ (hnl l (by simp))]
      rw [ih (by simp) (fun m hm => hnl m (List.mem_cons_of_mem l hm))]

theorem joinLines_map_joinLines (css : List (List (List Char)))
    (h : ∀ g ∈ css, g ≠ []) :
    joinLines (css.map joinLines) = joinLines css.flatten := by
  induction css with
  | nil => rfl
  | cons g css' ih =>
    match css' with
    | [] => simp [joinLines]
    | g2 :: gs =>
      have hg : g ≠ [] := h g (by simp)
      have hjoin : (g2 :: gs).flatten ≠ [] := by
        have hg2 : g2 ≠ [] := h g2 (by simp)
        simp only [List.flatten_cons]
        intro habs
        exact hg2 (List.append_eq_nil.mp habs).1
      have ihv : joinLines ((g2 :: gs).map joinLines) = joinLines (g2 :: gs).flatten :=
        ih (fun x hx => h x (List.mem_cons_of_mem g hx))
      show joinLines ((g :: g2 :: gs).map joinLines) = joinLines ((g :: g2 :: gs).flatten)
      have hm : (g :: g2 :: gs).map joinLines
          = joinLines g :: joinLines g2 :: gs.map joinLines := rfl
      have hm2 : (g2 :: gs).map joinLines = joinLines g2 :: gs.map joinLines := rfl
      have hj : (g :: g2 :: gs).flatten = g ++ (g2 :: gs).flatten := rfl
      rw [hm, joinLines_cons_cons, ← hm2, ihv, hj,
        joinLines_append g _ hg hjoin]

/-!
Chunker: `LangGraphAnalyzer._chunk_logs` in
`three_apps_diagnosis - 副本/log_analyzer/plugins/analyzers/langgraph.py`.
-/

/-- Loop of `_chunk_logs`: walk the lines, accumulating the current chunk
`cur` (a list of lines) and its running size `curSize`.  The running size is
the sum of the accumulated lines' UTF-8 byte lengths; the source never adds
the bytes of the joining newlines.  When adding the next line would push the
running size past `S` and the current chunk is nonempty, the current chunk is
closed and a new one starts with that line. -/
def chunkLoop (S : Nat) : List (List Char) → List (List Char) → Nat → List (List (List Char))
  | [], cur, _ => if cur = [] then [] else [cur]
  | line :: rest, cur, curSize =>
    if curSize + byteLen line > S ∧ cur ≠ [] then
      cur :: chunkLoop S rest [line] (byteLen line)
    else
      chunkLoop S rest (cur ++ [line]) (curSize + byteLen line)

/-- The chunks produced by `_chunk_logs`, as groups of lines (before the
final `'\n'.join(current_chunk)` of each chunk). -/
def chunkGroups (S : Nat) (logs : List Char) : List (List (List Char)) :=
  chunkLoop S (splitLines logs) [] 0

/-- `LangGraphAnalyzer._chunk_logs(logs)`: split the log text at newlines and
regroup the lines into size-bounded chunks, each chunk being the
newline-join of its group of lines. -/
def chunk_logs (S : Nat) (logs : List Char) : List (List Char) :=
  (chunkGroups S logs).map joinLines

theorem chunkLoop_flatten (S : Nat) (lines : List (List Char)) :
    ∀ cur curSize, (chunkLoop S lines cur curSize).flatten = cur ++ lines := by
  induction lines with
  | nil =>
    intro cur curSize
    by_cases h : cur = []
    · simp [chunkLoop, h]
    · simp [chunkLoop, h]
  | cons line rest ih =>
    intro cur curSize
    rw [chunkLoop]
    by_cases h : curSize + byteLen line > S ∧ cur ≠ []
    · rw [if_pos h]
      simp only [List.flatten_cons, ih]
      simp
    · rw [if_neg h, ih]
      simp

theorem chunkLoop_ne_nil (S : Nat) (lines : List (List Char)) :
    ∀ cur curSize g, g ∈ chunkLoop S lines cur curSize → g ≠ [] := by
  induction lines with
  | nil =>
    intro cur curSize g hg
    by_cases h : cur = []
    · rw [chunkLoop, if_pos h] at hg
      simp at hg
    · rw [chunkLoop, if_neg h] at hg
      rw [List.mem_singleton] at hg
      subst hg
      exact h
  | cons line rest ih =>
    intro cur curSize g hg
    rw [chunkLoop] at hg
    by_cases h : curSize + byteLen line > S ∧ cur ≠ []
    · rw [if_pos h] at hg
      rcases List.mem_cons.mp hg with h1 | h1
      · subst h1
        exact h.2
      · exact ih _ _ g h1
    · rw [if_neg h] at hg
      exact ih _ _ g hg

theorem linesBytes_append_single (cur : List (List Char)) (line : List Char) :
    linesBytes (cur ++ [line]) = linesBytes cur + byteLen line := by
  simp [linesBytes]

theorem chunkLoop_size (S : Nat) (lines : List (List Char)) :
    ∀ cur curSize g, curSize = linesBytes cur →
      (cur = [] ∨ cur.length = 1 ∨ linesBytes cur ≤ S) →
      g ∈ chunkLoop S lines cur curSize →
      g.length = 1 ∨ linesBytes g ≤ S := by
  induction lines with
  | nil =>
    intro cur curSize g _ hinv hg
    by_cases h : cur = []
    · rw [chunkLoop, if_pos h] at hg
      simp at hg
    · rw [chunkLoop, if_neg h] at hg
      rw [List.mem_singleton] at hg
      subst hg
      rcases hinv with h1 | h1 | h1
      · exact absurd h1 h
      · exact Or.inl h1
      · exact Or.inr h1
  | cons line rest ih =>
    intro cur curSize g hsz hinv hg
    rw [chunkLoop] at hg
    by_cases h : curSize + byteLen line > S ∧ cur ≠ []
    · rw [if_pos h] at hg
      rcases List.mem_cons.mp hg with h1 | h1
      · subst h1
        rcases hinv with h2 | h2 | h2
        · exact absurd h2 h.2
        · exact Or.inl h2
        · exact Or.inr h2
      · refine ih [line] (byteLen line) g ?_ ?_ h1
        · simp [linesBytes]
        · exact Or.inr (Or.inl rfl)
    · rw [if_neg h] at hg
      push_neg at h
      refine ih (cur ++ [line]) (curSize + byteLen line) g ?_ ?_ hg
      · rw [linesBytes_append_single, hsz]
      · by_cases hcur : cur = []
        · subst hcur
          exact Or.inr (Or.inl (by simp))
        · have hle : curSize + byteLen line ≤ S := by
            by_contra hgt
            exact hcur (h (by omega))
          right; right
          rw [linesBytes_append_single]
          omega

/-- The size-bound half of claim C1 exactly as the spec states it: no chunk's
UTF-8 byte length exceeds `S`, except a chunk that is a single line (which is
then itself longer than `S`). -/
def chunkSizeBoundStated (S : Nat) (logs : List Char) : Prop :=
  ∀ c ∈ chunk_logs S logs, byteLen c > S → (splitLines c).length = 1

instance (S : Nat) (logs : List Char) : Decidable (chunkSizeBoundStated S logs) := by
  unfold chunkSizeBoundStated
  infer_instance

/-- Claim C1 as stated is false: with `chunk_size = 4` and input `"ab\nab"`,
`_chunk_logs` returns the single chunk `"ab\nab"`, whose UTF-8 byte length is
5 > 4 although it holds two lines of 2 bytes each — the running-size check of
the source counts only the lines' bytes, never the joining newlines. -/
theorem C1_counterexample :
    ¬ (joinLines (chunk_logs 4 ['a', 'b', '\n', 'a', 'b']) = ['a', 'b', '\n', 'a', 'b'] ∧
       chunkSizeBoundStated 4 ['a', 'b', '\n', 'a', 'b']) := by
  decide

/-- Claim C1, amended: joining the chunks of `_chunk_logs` with `'\n'`
reproduces the input exactly, and no chunk's UTF-8 byte length **counting
only its lines and not the newline separators between them** exceeds the
chunk size `S`, except a chunk consisting of a single line. -/
theorem C1_chunk_lossless_and_bound (S : Nat) (logs : List Char) :
    joinLines (chunk_logs S logs) = logs ∧
    ∀ c ∈ chunk_logs S logs,
      linesBytes (splitLines c) > S → (splitLines c).length = 1 := by
  constructor
  · simp only [chunk_logs, chunkGroups]
    rw [joinLines_map_joinLines _ (fun g hg => chunkLoop_ne_nil S _ [] 0 g hg)]
    rw [chunkLoop_flatten]
    simpa using joinLines_splitLines logs
  · intro c hc hgt
    simp only [chunk_logs, chunkGroups] at hc
    rcases List.mem_map.mp hc with ⟨g, hg, hcg⟩
    have hne : g ≠ [] := chunkLoop_ne_nil S _ [] 0 g hg
    have hnl : ∀ l ∈ g, '\n' ∉ l := by
      intro l hl
      have hmem : l ∈ (chunkLoop S (splitLines logs) [] 0).flatten :=
        List.mem_flatten.mpr ⟨g, hg, hl⟩
      rw [chunkLoop_flatten] at hmem
      rw [List.nil_append] at hmem
      exact newline_not_mem_splitLines logs l hmem
    have hsplit : splitLines c = g := by
      rw [← hcg]
      exact splitLines_joinLines g hne hnl
    rw [hsplit] at hgt ⊢
    rcases chunkLoop_size S (splitLines logs) [] 0 g rfl (Or.inl rfl) hg with h1 | h1
    · exact h1
    · omega

/-!
Noise filter, summarisation and the analysis pipeline:
`LangGraphAnalyzer._analyze_async` / `_summarize` in
`three_apps_diagnosis - 副本/log_analyzer/plugins/analyzers/langgraph.py`.
-/

/-- The sentinel the per-chunk prompt asks the model to return for a clean
chunk; the filter compares it against the stripped chunk result. -/
def noneSentinel : List Char := "<NONE>".toList

/-- First no-errors phrase the filter scans for. -/
def phraseNoErr1 : List Char := "未发现任何错误".toList

/-- Second no-errors phrase the filter scans for. -/
def phraseNoErr2 : List Char := "未发现错误".toList

/-- Third no-errors phrase the filter scans for. -/
def phraseNoErr3 : List Char := "无错误".toList

/-- Python `pat in s` for strings: `pat` occurs contiguously in `s`. -/
def containsSub (pat : List Char) : List Char → Bool
  | [] => pat.isEmpty
  | c :: cs => pat.isPrefixOf (c :: cs) || containsSub pat cs

/-- One chunk result is noise when the `valid_analyses` loop of
`_analyze_async` skips it: falsy (empty), equal to `"<NONE>"` after
stripping, containing one of the three no-errors phrases, or shorter than 50
characters after stripping. -/
def isNoise (a : List Char) : Bool :=
  a.isEmpty || pyStrip a == noneSentinel ||
  containsSub phraseNoErr1 a || containsSub phraseNoErr2 a || containsSub phraseNoErr3 a ||
  decide ((pyStrip a).length < 50)

/-- The `valid_analyses` filter loop of `_analyze_async`. -/
def filter_valid (analyses : List (List Char)) : List (List Char) :=
  analyses.filter (fun a => !(isNoise a))

/-!
Concurrent progress counting: `LangGraphAnalyzer._analyze_concurrent`.
Under asyncio's single-threaded cooperative scheduling the body of
`async with lock:` contains no suspension point, so the increment of
`processed_count` together with the progress callback executes as one atomic
step, and the lock serialises the completions.  A run of the concurrent mode
is therefore modelled by the order in which the chunk completions execute
their locked increment — an arbitrary permutation of the chunk indices.
-/

/-- Shared progress state of `_analyze_concurrent`: the `processed_count`
counter and the successive counts handed to the progress callback. -/
structure ProgState where
  processed : Nat
  reported : List Nat
deriving DecidableEq

/-- The locked body `processed_count += 1; progress_callback(run_id, total,
processed_count)` executed once by each completed chunk. -/
def progStep (s : ProgState) : ProgState :=
  { processed := s.processed + 1, reported := s.reported ++ [s.processed + 1] }

/-- Execute the locked increments of the completed chunks in completion
order.  The completing chunk's index does not enter the counter update, but
carrying the order models one completion per chunk. -/
def runProgress : List Nat → ProgState → ProgState
  | [], s => s
  | _ :: rest, s => runProgress rest (progStep s)

theorem runProgress_spec (l : List Nat) :
    ∀ s : ProgState,
      runProgress l s =
        { processed := s.processed + l.length,
          reported := s.reported ++
            (List.range l.length).map (fun k => s.processed + (k + 1)) } := by
  induction l with
  | nil =>
    intro s
    simp [runProgress]
  | cons x rest ih =>
    intro s
    rw [runProgress, ih]
    have hmap : (List.range rest.length).map (fun k => (progStep s).processed + (k + 1))
        = (List.range rest.length).map (fun k => s.processed + (k + 1 + 1)) := by
      refine List.map_congr_left (fun k _ => ?_)
      simp [progStep]
      omega
    rw [hmap]
    have hrange : (List.range (rest.length + 1)).map (fun k => s.processed + (k + 1))
        = (s.processed + 1) :: (List.range rest.length).map (fun k => s.processed + (k + 1 + 1)) := by
      rw [List.range_succ_eq_map]
      simp [List.map_map, Function.comp]
    simp only [progStep, List.length_cons, hrange]
    congr 1
    · omega
    · simp

/-!
Analysis pipeline model.  The two LLM interactions are oracles:
`_analyze_chunk` absorbs every exception of its own call and always returns
text, so one oracle value per chunk suffices; the synthesis call of
`_summarize` may succeed or raise, which its handler absorbs.
-/

/-- Outcome of the synthesis LLM call made by `_summarize`. -/
inductive LLMOutcome where
  | ok (content : List Char)
  | raised (msg : List Char)
deriving DecidableEq

/-- Python `sep.join(strings)` for an arbitrary separator. -/
def joinWith (sep : List Char) : List (List Char) → List Char
  | [] => []
  | [a] => a
  | a :: b :: rest => a ++ sep ++ joinWith sep (b :: rest)

/-- `LangGraphAnalyzer._summarize(analyses)`: one analysis is returned
unchanged with no LLM call; for several, the synthesis call is issued — its
stripped content on success, the `'\n\n---\n\n'` joining of the analyses when
the call raises.  The boolean records whether the synthesis call was
issued. -/
def summarize (synth : LLMOutcome) (analyses : List (List Char)) : List Char × Bool :=
  if analyses.length = 1 then (analyses.headD [], false)
  else
    match synth with
    | .ok content => (pyStrip content, true)
    | .raised _ => (joinWith "\n\n---\n\n".toList analyses, true)

/-- The `data` argument of `_analyze_async`: a string, or an iterable of
strings that the source joins with `'\n'.join(data)`.  The final `str(data)`
fallback for non-iterable non-strings is not modelled. -/
inductive AnalyzerInput where
  | str (s : List Char)
  | iter (items : List (List Char))
deriving DecidableEq

/-- The `log_data` string `_analyze_async` works on. -/
def textualForm : AnalyzerInput → List Char
  | .str s => s
  | .iter items => joinLines items

/-- Analysis mode switch of the analyzer: `sequential`, or `concurrent`
together with the order in which the chunk completions execute their locked
progress increment. -/
inductive AnalysisMode where
  | sequential
  | concurrent (completionOrder : List Nat)
deriving DecidableEq

/-- The successive `processed_chunks` values the per-chunk phase passes to
the progress callback: `_analyze_sequential` reports `i + 1` after chunk `i`;
`_analyze_concurrent` reports the locked counter value at each completion. -/
def perChunkCounts (total : Nat) : AnalysisMode → List Nat
  | .sequential => (List.range total).map (fun k => k + 1)
  | .concurrent order => (runProgress order ⟨0, []⟩).reported

/-- Observable outcome of one `_analyze_async` invocation: the returned
report, how many per-chunk LLM calls were issued, whether the synthesis call
was issued, and the `(total_chunks, processed_chunks)` pairs passed to the
progress callback, in order. -/
structure AnalyzeOutcome where
  report : List Char
  chunkCalls : Nat
  synthCalled : Bool
  progressEvents : List (Nat × Nat)
deriving DecidableEq

/-- The fixed report `_analyze_async` returns when the input strips to
nothing. -/
def emptyInputReport : List Char := "未发现任何错误".toList

/-- The canned report returned when no chunk analysis survives the filter. -/
def noSurvivorReport : List Char :=
  "## 分析结果\n\n✅ **未发现任何错误**\n\n本次分析未检测到任何错误、异常或警告信息。".toList

/-- `LangGraphAnalyzer._analyze_async`, per-chunk analysis and synthesis call
abstracted as oracles.  Both modes return the chunk results in submission
order (`asyncio.gather` preserves order), so `chunks.map chunkOracle` covers
both; the progress-event list differs by mode. -/
def analyze_async (chunkSize : Nat) (chunkOracle : List Char → List Char)
    (synth : LLMOutcome) (mode : AnalysisMode) (data : AnalyzerInput) : AnalyzeOutcome :=
  let logData := textualForm data
  if pyStrip logData = [] then
    { report := emptyInputReport, chunkCalls := 0, synthCalled := false,
      progressEvents := [] }
  else
    let chunks := chunk_logs chunkSize logData
    let total := chunks.length
    let analyses := chunks.map chunkOracle
    let events := ((total, 0) :: (perChunkCounts total mode).map (fun k => (total, k)))
      ++ [(total, total)]
    let valid := filter_valid analyses
    if valid = [] then
      { report := noSurvivorReport, chunkCalls := total, synthCalled := false,
        progressEvents := events }
    else
      let s := summarize synth valid
      { report := s.1, chunkCalls := total, synthCalled := s.2,
        progressEvents := events }

/-- Claim C7: the noise filter is idempotent — applying the `valid_analyses`
filter of `_analyze_async` to its own output returns that output
unchanged. -/
theorem C7_filter_idempotent (analyses : List (List Char)) :
    filter_valid (filter_valid analyses) = filter_valid analyses := by
  simp [filter_valid, List.filter_filter]

/-- Claim C3: in concurrent mode, the locked increment updates the processed
counter exactly once per completed chunk, so for any completion interleaving
of the N chunks the counts reported through the progress callback are
1, 2, …, N — one report per chunk, non-decreasing, reaching exactly N. -/
theorem C3_progress_exact (n : Nat) (order : List Nat)
    (hnodup : order.Nodup) (hmem : ∀ i ∈ order, i < n) (hlen : order.length = n) :
    (runProgress order ⟨0, []⟩).reported = (List.range n).map (fun k => k + 1) ∧
    (runProgress order ⟨0, []⟩).processed = n ∧
    (runProgress order ⟨0, []⟩).reported.Sorted (· ≤ ·) ∧
    (runProgress order ⟨0, []⟩).reported.length = n := by
  have hspec := runProgress_spec order ⟨0, []⟩
  rw [hspec]
  simp only [List.nil_append, hlen]
  have hzero : (List.range n).map (fun k => 0 + (k + 1)) = (List.range n).map (fun k => k + 1) :=
    List.map_congr_left (fun k _ => by omega)
  rw [hzero]
  refine ⟨rfl, by omega, ?_, by simp⟩
  exact List.Pairwise.map _ (fun a b hab => by omega) (List.sorted_le_range n)

/-- Witness for C3 at a concrete interleaving: three chunks completing in the
order 2, 0, 1 report the counts 1, 2, 3. -/
theorem C3_progress_exact_witness :
    ([2, 0, 1] : List Nat).Nodup ∧ (∀ i ∈ ([2, 0, 1] : List Nat), i < 3) ∧
    ([2, 0, 1] : List Nat).length = 3 ∧
    ((runProgress [2, 0, 1] ⟨0, []⟩).reported = (List.range 3).map (fun k => k + 1) ∧
     (runProgress [2, 0, 1] ⟨0, []⟩).processed = 3 ∧
     (runProgress [2, 0, 1] ⟨0, []⟩).reported.Sorted (· ≤ ·) ∧
     (runProgress [2, 0, 1] ⟨0, []⟩).reported.length = 3) :=
  ⟨by decide, by decide, by decide,
    C3_progress_exact 3 [2, 0, 1] (by decide) (by decide) (by decide)⟩

/-- Claim C4: single-survivor shortcut — when exactly one per-chunk result
survives the noise filter, the report `_analyze_async` returns is that
surviving result exactly and the synthesis LLM call is not issued. -/
theorem C4_single_survivor (chunkSize : Nat) (chunkOracle : List Char → List Char)
    (synth : LLMOutcome) (mode : AnalysisMode) (data : AnalyzerInput) (r : List Char)
    (hne : pyStrip (textualForm data) ≠ [])
    (hone : filter_valid ((chunk_logs chunkSize (textualForm data)).map chunkOracle) = [r]) :
    (analyze_async chunkSize chunkOracle synth mode data).report = r ∧
    (analyze_async chunkSize chunkOracle synth mode data).synthCalled = false := by
  simp only [analyze_async]
  rw [if_neg hne, hone]
  simp [summarize]

/-- Witness for C4: a single 60-character chunk result that passes the
filter is returned verbatim with no synthesis call. -/
theorem C4_single_survivor_witness :
    pyStrip (textualForm (AnalyzerInput.str (List.replicate 60 'x'))) ≠ [] ∧
    filter_valid ((chunk_logs 100 (textualForm (AnalyzerInput.str (List.replicate 60 'x')))).map id)
      = [List.replicate 60 'x'] ∧
    ((analyze_async 100 id (.raised []) .sequential
        (.str (List.replicate 60 'x'))).report = List.replicate 60 'x' ∧
     (analyze_async 100 id (.raised []) .sequential
        (.str (List.replicate 60 'x'))).synthCalled = false) :=
  ⟨by decide, by decide,
    C4_single_survivor 100 id (.raised []) .sequential _ _ (by decide) (by decide)⟩

/-- Claim C10: empty-input shortcut — when the textual form of the input
strips to nothing, `_analyze_async` returns the fixed string
`"未发现任何错误"` with no chunk LLM call, no synthesis call and no progress
callback invocation. -/
theorem C10_empty_input (chunkSize : Nat) (chunkOracle : List Char → List Char)
    (synth : LLMOutcome) (mode : AnalysisMode) (data : AnalyzerInput)
    (h : pyStrip (textualForm data) = []) :
    analyze_async chunkSize chunkOracle synth mode data =
      { report := emptyInputReport, chunkCalls := 0, synthCalled := false,
        progressEvents := [] } := by
  simp only [analyze_async]
  rw [if_pos h]

/-- Witness for C10 on whitespace-only input. -/
theorem C10_empty_input_witness :
    pyStrip (textualForm (AnalyzerInput.str [' ', '\n', '\t', ' '])) = [] ∧
    analyze_async 5000 id (.raised []) .sequential (.str [' ', '\n', '\t', ' ']) =
      { report := emptyInputReport, chunkCalls := 0, synthCalled := false,
        progressEvents := [] } :=
  ⟨by decide, C10_empty_input 5000 id (.raised []) .sequential _ (by decide)⟩

/-!
Run-id allocation: `TaskExecutor._create_run` in both task engines
(`log_analyzer/task.py` and `db_ops_analyzer/task.py`).  Each call executes
`run_id = self._run_id_counter + 1; self._run_id_counter = run_id` inside
`with self._lock:`, so any set of concurrent calls serialises into a
sequence of atomic allocations against the shared counter.
-/

/-- The mutex-protected critical section of `_create_run`: read the counter,
allocate `counter + 1`, store it back.  Returns the allocated run id and the
new counter value. -/
def create_run (counter : Nat) : Nat × Nat :=
  (counter + 1, counter + 1)

/-- The run ids returned by `k` serialised allocations starting from counter
value `c` (the order in which concurrent callers enter the critical
section). -/
def allocRuns : Nat → Nat → List Nat
  | 0, _ => []
  | k + 1, c => (create_run c).1 :: allocRuns k (create_run c).2

theorem allocRuns_closed (k : Nat) :
    ∀ c, allocRuns k c = (List.range k).map (fun i => c + i + 1) := by
  induction k with
  | zero =>
    intro c
    simp [allocRuns]
  | succ k ih =>
    intro c
    rw [allocRuns, ih]
    rw [List.range_succ_eq_map]
    simp only [List.map_cons, List.map_map]
    congr 1
    refine List.map_congr_left (fun i _ => ?_)
    simp only [Function.comp, create_run]
    omega

theorem allocRuns_chain (k : Nat) :
    ∀ c, List.Chain' (fun a b => b = a + 1) (allocRuns k c) := by
  induction k with
  | zero =>
    intro c
    simp [allocRuns]
  | succ k ih =>
    intro c
    rw [allocRuns]
    refine List.chain'_cons'.mpr ⟨?_, ih (create_run c).2⟩
    intro b hb
    match k with
    | 0 => simp [allocRuns] at hb
    | k2 + 1 =>
      rw [allocRuns] at hb
      simp only [Option.mem_def, List.head?_cons, Option.some.injEq] at hb
      subst hb
      simp [create_run]

/-- Claim C6: run-id uniqueness and density — the run ids returned by K
allocations (any serialisation of K concurrent `execute_task_async` calls,
each allocating inside the mutex-protected critical section of
`_create_run`) are `c+1, c+2, …, c+K`: pairwise distinct, strictly
increasing by one from the initial counter, with no gaps. -/
theorem C6_run_ids_dense (k c : Nat) :
    allocRuns k c = (List.range k).map (fun i => c + i + 1) ∧
    (allocRuns k c).Nodup ∧
    List.Chain' (fun a b => b = a + 1) (allocRuns k c) ∧
    (allocRuns k c).length = k := by
  refine ⟨allocRuns_closed k c, ?_, allocRuns_chain k c, by rw [allocRuns_closed]; simp⟩
  rw [allocRuns_closed]
  refine List.Nodup.map ?_ (List.nodup_range k)
  intro a b hab
  have hab2 : c + a + 1 = c + b + 1 := hab
  omega

/-!
Structured-data analyzer: `LangGraphAnalyzer._analyze_async` /
`_format_error_report` in `db_ops_analyzer/plugins/analyzers/langgraph.py`.
The single LLM call is an oracle whose failure classes mirror the source's
five `except` handlers; each handler absorbs the exception and returns a
formatted error report, so the analyzer never raises.
-/

/-- Decimal rendering of a number interpolated into an f-string. -/
def natStr (n : Nat) : List Char :=
  (Nat.repr n).toList

/-- The analyzer configuration fields that appear in its error messages. -/
structure AnalyzerCfg where
  base_url : List Char
  api_key : List Char
  model_name : List Char
  timeout : Nat
deriving DecidableEq

/-- The parts of the collected-data dictionary the error-report path reads:
`database_type` and `host` (`.get` with default `'Unknown'`), and the
lengths of `slow_queries`, `processlist` and `tables` — only the counts
appear in the report. -/
structure DbData where
  database_type : Option (List Char)
  host : Option (List Char)
  slow_queries : Nat
  processlist : Nat
  tables : Nat
deriving DecidableEq

/-- Error message of the `asyncio.TimeoutError` handler. -/
def errMsgTimeout (cfg : AnalyzerCfg) : List Char :=
  "数据库分析超时（已等待 ".toList ++ natStr cfg.timeout ++
  " 秒）\n\n可能的原因：\n1. LLM API服务响应慢\n2. 数据量过大，分析时间过长\n3. 网络连接不稳定\n\n建议：\n- 检查LLM API服务状态\n- 尝试增加超时时间（当前: ".toList ++
  natStr cfg.timeout ++ "秒）\n- 检查网络连接".toList

/-- Error message of the `httpx.TimeoutException` handler. -/
def errMsgHttpxTimeout (cfg : AnalyzerCfg) (e : List Char) : List Char :=
  "LLM API请求超时\n\n错误详情: ".toList ++ e ++
  "\n\n可能的原因：\n1. LLM API服务无响应\n2. 网络连接超时\n3. 服务器负载过高\n\n建议：\n- 检查LLM API服务是否正常运行\n- 检查网络连接\n- 尝试增加超时时间（当前: ".toList ++
  natStr cfg.timeout ++ "秒）".toList

/-- Error message of the `httpx.ConnectError` handler. -/
def errMsgConnect (cfg : AnalyzerCfg) (e : List Char) : List Char :=
  "无法连接到LLM API服务\n\n错误详情: ".toList ++ e ++
  "\n\n可能的原因：\n1. LLM API服务未运行\n2. base_url配置错误（当前: ".toList ++ cfg.base_url ++
  "）\n3. 网络不通或防火墙阻止\n\n建议：\n- 检查base_url配置是否正确\n- 检查LLM API服务是否运行\n- 测试网络连接: curl ".toList ++
  cfg.base_url

/-- Error message of the `openai.APIError` handler. -/
def errMsgApi (cfg : AnalyzerCfg) (e : List Char) : List Char :=
  "LLM API错误\n\n错误详情: ".toList ++ e ++
  "\n\n可能的原因：\n1. API密钥无效（当前key: ".toList ++ cfg.api_key.take 10 ++
  "...）\n2. 模型名称错误（当前: ".toList ++ cfg.model_name ++
  "）\n3. API服务返回错误\n\n建议：\n- 检查API密钥是否正确\n- 检查模型名称是否正确\n- 查看LLM API服务日志".toList

/-- Error message of the final catch-all `Exception` handler. -/
def errMsgOther (e ename : List Char) : List Char :=
  "数据库分析失败\n\n错误详情: ".toList ++ e ++ "\n\n错误类型: ".toList ++ ename

/-- `LangGraphAnalyzer._format_error_report(error_msg, data)`. -/
def format_error_report (report_time error_msg : List Char) (data : DbData) : List Char :=
  "# 📊 数据库运维分析报告\n\n> **报告生成时间**: ".toList ++ report_time ++
  "  \n> **数据库类型**: ".toList ++ data.database_type.getD "Unknown".toList ++
  "  \n> **数据库地址**: ".toList ++ data.host.getD "Unknown".toList ++
  "  \n> **状态**: ❌ 分析失败\n\n---\n\n## ⚠️ 错误信息\n\n".toList ++ error_msg ++
  "\n\n## 📋 收集的数据概览\n\n- **慢查询数量**: ".toList ++ natStr data.slow_queries ++
  "\n- **活跃连接数**: ".toList ++ natStr data.processlist ++
  "\n- **表数量**: ".toList ++ natStr data.tables ++
  "\n\n---\n\n**注意**: 由于分析过程出错，无法生成完整的分析报告。请检查数据收集是否正常。\n".toList

/-- Outcome of the single analysis LLM call, by the exception class the
source's handlers distinguish.  `apiError` is `openai.APIError`, which is
what malformed responses (response-validation failures) and authentication
failures raise through the openai client. -/
inductive DbLLMOutcome where
  | success (content : List Char)
  | asyncioTimeout
  | httpxTimeout (e : List Char)
  | httpxConnect (e : List Char)
  | apiError (e : List Char)
  | otherExn (ename e : List Char)
deriving DecidableEq

/-- `LangGraphAnalyzer._analyze_async` of the db-ops analyzer.  The success
path's deterministic whitespace reformatting (`_force_format_report` /
`_format_report`) does not bear on the failure-handling claims and is the
oracle `fmtSuccess`; every failure class is absorbed by its handler and
becomes a formatted error report — the function is total, mirroring that the
source never lets an exception escape `_analyze_async`. -/
def db_analyze (fmtSuccess : List Char → DbData → List Char) (cfg : AnalyzerCfg)
    (report_time : List Char) (data : DbData) : DbLLMOutcome → List Char
  | .success content => fmtSuccess content data
  | .asyncioTimeout => format_error_report report_time (errMsgTimeout cfg) data
  | .httpxTimeout e => format_error_report report_time (errMsgHttpxTimeout cfg e) data
  | .httpxConnect e => format_error_report report_time (errMsgConnect cfg e) data
  | .apiError e => format_error_report report_time (errMsgApi cfg e) data
  | .otherExn ename e => format_error_report report_time (errMsgOther e ename) data

theorem infix_append_left {α : Type} {m x : List α} (a : List α) (h : m <:+: x) :
    m <:+: a ++ x := by
  rcases h with ⟨s, t, rfl⟩
  exact ⟨a ++ s, t, by simp⟩

theorem infix_append_right {α : Type} {m x : List α} (b : List α) (h : m <:+: x) :
    m <:+: x ++ b := by
  rcases h with ⟨s, t, rfl⟩
  exact ⟨s, t ++ b, by simp⟩

theorem infix_append_last {α : Type} (a m : List α) : m <:+: a ++ m :=
  ⟨a, [], by simp⟩

theorem errMsg_infix_format (rt m : List Char) (data : DbData) :
    m <:+: format_error_report rt m data := by
  simp only [format_error_report]
  repeat
    first
      | exact infix_append_last _ m
      | apply infix_append_right

theorem phrase_in_db_report (rt m p : List Char) (data : DbData) (h : p <:+: m) :
    p <:+: format_error_report rt m data := by
  rcases h with ⟨s, t, rfl⟩
  rcases errMsg_infix_format rt (s ++ p ++ t) data with ⟨u, v, hv⟩
  exact ⟨u ++ s, t ++ v, by rw [← hv]; simp⟩

set_option maxRecDepth 16384

/-- Claim C5: analyzer totality — for every configuration, dataset and every
class of LLM-call failure the source distinguishes (timeout, both as
`asyncio.TimeoutError` and `httpx.TimeoutException`; connection failure;
`openai.APIError`, which is what malformed responses and authentication
failures raise through the openai client), the db-ops `_analyze_async`
returns the structured error report, which embeds the failure-category
phrase, the error detail and the remediation hints (its `建议` section).
The model is a total function into report text, mirroring that every
handler absorbs its exception and the caller never receives one. -/
theorem C5_analyzer_totality (fmtSuccess : List Char → DbData → List Char)
    (cfg : AnalyzerCfg) (rt : List Char) (data : DbData) (e : List Char) :
    (db_analyze fmtSuccess cfg rt data .asyncioTimeout
        = format_error_report rt (errMsgTimeout cfg) data ∧
      "数据库分析超时".toList <:+: db_analyze fmtSuccess cfg rt data .asyncioTimeout ∧
      "建议".toList <:+: db_analyze fmtSuccess cfg rt data .asyncioTimeout) ∧
    (db_analyze fmtSuccess cfg rt data (.httpxTimeout e)
        = format_error_report rt (errMsgHttpxTimeout cfg e) data ∧
      "LLM API请求超时".toList <:+: db_analyze fmtSuccess cfg rt data (.httpxTimeout e) ∧
      "建议".toList <:+: db_analyze fmtSuccess cfg rt data (.httpxTimeout e) ∧
      e <:+: db_analyze fmtSuccess cfg rt data (.httpxTimeout e)) ∧
    (db_analyze fmtSuccess cfg rt data (.httpxConnect e)
        = format_error_report rt (errMsgConnect cfg e) data ∧
      "无法连接到LLM API服务".toList <:+: db_analyze fmtSuccess cfg rt data (.httpxConnect e) ∧
      "建议".toList <:+: db_analyze fmtSuccess cfg rt data (.httpxConnect e) ∧
      e <:+: db_analyze fmtSuccess cfg rt data (.httpxConnect e)) ∧
    (db_analyze fmtSuccess cfg rt data (.apiError e)
        = format_error_report rt (errMsgApi cfg e) data ∧
      "LLM API错误".toList <:+: db_analyze fmtSuccess cfg rt data (.apiError e) ∧
      "建议".toList <:+: db_analyze fmtSuccess cfg rt data (.apiError e) ∧
      e <:+: db_analyze fmtSuccess cfg rt data (.apiError e)) := by
  refine ⟨⟨rfl, ?_, ?_⟩, ⟨rfl, ?_, ?_, ?_⟩, ⟨rfl, ?_, ?_, ?_⟩, ⟨rfl, ?_, ?_, ?_⟩⟩
  · refine phrase_in_db_report rt _ _ data ?_
    simp only [errMsgTimeout]
    repeat
      first
        | exact List.infix_rfl
        | exact infix_append_last _ _
        | exact infix_append_left _ (by decide)
        | decide
        | apply infix_append_right
  · refine phrase_in_db_report rt _ _ data ?_
    simp only [errMsgTimeout]
    repeat
      first
        | exact List.infix_rfl
        | exact infix_append_last _ _
        | exact infix_append_left _ (by decide)
        | decide
        | apply infix_append_right
  · refine phrase_in_db_report rt _ _ data ?_
    simp only [errMsgHttpxTimeout]
    repeat
      first
        | exact List.infix_rfl
        | exact infix_append_last _ _
        | exact infix_append_left _ (by decide)
        | decide
        | apply infix_append_right
  · refine phrase_in_db_report rt _ _ data ?_
    simp only [errMsgHttpxTimeout]
    repeat
      first
        | exact List.infix_rfl
        | exact infix_append_last _ _
        | exact infix_append_left _ (by decide)
        | decide
        | apply infix_append_right
  · refine phrase_in_db_report rt _ _ data ?_
    simp only [errMsgHttpxTimeout]
    repeat
      first
        | exact List.infix_rfl
        | exact infix_append_last _ _
        | exact infix_append_left _ (by decide)
        | decide
        | apply infix_append_right
  · refine phrase_in_db_report rt _ _ data ?_
    simp only [errMsgConnect]
    repeat
      first
        | exact List.infix_rfl
        | exact infix_append_last _ _
        | exact infix_append_left _ (by decide)
        | decide
        | apply infix_append_right
  · refine phrase_in_db_report rt _ _ data ?_
    simp only [errMsgConnect]
    repeat
      first
        | exact List.infix_rfl
        | exact infix_append_last _ _
        | exact infix_append_left _ (by decide)
        | decide
        | apply infix_append_right
  · refine phrase_in_db_report rt _ _ data ?_
    simp only [errMsgConnect]
    repeat
      first
        | exact List.infix_rfl
        | exact infix_append_last _ _
        | exact infix_append_left _ (by decide)
        | decide
        | apply infix_append_right
  · refine phrase_in_db_report rt _ _ data ?_
    simp only [errMsgApi]
    repeat
      first
        | exact List.infix_rfl
        | exact infix_append_last _ _
        | exact infix_append_left _ (by decide)
        | decide
        | apply infix_append_right
  · refine phrase_in_db_report rt _ _ data ?_
    simp only [errMsgApi]
    repeat
      first
        | exact List.infix_rfl
        | exact infix_append_last _ _
        | exact infix_append_left _ (by decide)
        | decide
        | apply infix_append_right
  · refine phrase_in_db_report rt _ _ data ?_
    simp only [errMsgApi]
    repeat
      first
        | exact List.infix_rfl
        | exact infix_append_last _ _
        | exact infix_append_left _ (by decide)
        | decide
        | apply infix_append_right

/-!
Aggregator: `MultiSource.collect` in
`three_apps_diagnosis - 副本/log_analyzer/plugins/sources/multi.py`.  Each
sub-source instance carries the `label` set at construction; the timestamp
of an entry is `datetime.now().strftime(...)` at collection time, modelled
as a per-source timestamp string.  A sub-source whose `collect()` raises is
caught, logged and skipped.
-/

/-- Result of one sub-source's `collect()`: a plain string (the DockerSource
case), an iterable of strings, or a raised exception. -/
inductive SubResult where
  | rstr (s : List Char)
  | riter (chunks : List (List Char))
  | raises (msg : List Char)
deriving DecidableEq

/-- One configured sub-source of a `MultiSource`. -/
structure SubSource where
  label : List Char
  ts : List Char
  result : SubResult
deriving DecidableEq

/-- Whether this sub-source's `collect()` raises. -/
def subRaises (src : SubSource) : Bool :=
  match src.result with
  | .raises _ => true
  | _ => false

/-- The `(timestamp, label, content)` entries a sub-source with the given
timestamp, label and `collect()` result contributes to `all_logs`: a truthy
(nonempty) string result is one entry; an iterable contributes one entry per
truthy chunk; a raising sub-source contributes nothing — its exception is
caught and logged. -/
def entriesOfRes (ts label : List Char) : SubResult → List (List Char × List Char × List Char)
  | .rstr s => if s = [] then [] else [(ts, label, s)]
  | .riter chunks => (chunks.filter (fun c => !c.isEmpty)).map (fun c => (ts, label, c))
  | .raises _ => []

/-- The entries one sub-source contributes to `all_logs`. -/
def entriesOf (src : SubSource) : List (List Char × List Char × List Char) :=
  entriesOfRes src.ts src.label src.result

/-- Format of one output line: `"[{timestamp}] [{label}] {line}\n"`. -/
def fmtLine (ts label line : List Char) : List Char :=
  "[".toList ++ ts ++ "] [".toList ++ label ++ "] ".toList ++ line ++ "\n".toList

/-- The per-entry emission loop: split the entry's content at newlines and
yield one formatted line per non-blank line. -/
def emitEntry (e : List Char × List Char × List Char) : List (List Char) :=
  ((splitLines e.2.2).filter (fun l => !(pyStrip l).isEmpty)).map (fmtLine e.1 e.2.1)

/-- One entry of the optional call-chain configuration. -/
structure CallEdge where
  src : List Char
  dst : List Char
  protocol : List Char
deriving DecidableEq

/-- The leading annotation block emitted when a call chain is configured. -/
def callChainInfo (chain : List CallEdge) : List Char :=
  joinLines (chain.map (fun c =>
    "# 调用关系: ".toList ++ c.src ++ " -> ".toList ++ c.dst ++ " (".toList ++
      c.protocol ++ ")".toList)) ++ "\n\n".toList

/-- Python string less-or-equal (lexicographic on code points), the order of
`all_logs.sort(key=lambda x: x[0])`. -/
def strLe : List Char → List Char → Bool
  | [], _ => true
  | _ :: _, [] => false
  | a :: as, b :: bs => if a < b then true else if b < a then false else strLe as bs

/-- `MultiSource.collect()`: gather the entries of every sub-source (a
raising sub-source is skipped), return the empty stream when nothing was
collected, otherwise sort the entries by timestamp (Python's stable sort),
emit the call-chain annotation block when a call chain is configured, then
one labeled line per non-blank line of each entry.  Total by construction:
sub-source exceptions are absorbed, none propagates. -/
def multi_collect (callChain : List CallEdge) (sources : List SubSource) : List (List Char) :=
  let allLogs := (sources.map entriesOf).flatten
  if allLogs = [] then []
  else
    let sorted := allLogs.mergeSort (fun a b => strLe a.1 b.1)
    let header := if callChain = [] then [] else [callChainInfo callChain]
    header ++ (sorted.map emitEntry).flatten

theorem entriesOf_raises (src : SubSource) (h : subRaises src = true) :
    entriesOf src = [] := by
  unfold entriesOf
  cases hres : src.result with
  | raises m => rfl
  | rstr s => rw [subRaises, hres] at h; simp at h
  | riter cs => rw [subRaises, hres] at h; simp at h

theorem map_entriesOf_filter (sources : List SubSource) :
    (sources.map entriesOf).flatten
      = ((sources.filter (fun s => !subRaises s)).map entriesOf).flatten := by
  induction sources with
  | nil => rfl
  | cons s rest ih =>
    by_cases h : subRaises s = true
    · simp [List.filter_cons, h, entriesOf_raises s h, ih]
    · have h2 : subRaises s = false := by simpa using h
      simp [List.filter_cons, h2, ← ih]

theorem multi_collect_skip (callChain : List CallEdge) (sources : List SubSource) :
    multi_collect callChain sources
      = multi_collect callChain (sources.filter (fun s => !subRaises s)) := by
  unfold multi_collect
  rw [← map_entriesOf_filter]

theorem mem_entriesOf (src : SubSource) (e : List Char × List Char × List Char)
    (h : e ∈ entriesOf src) :
    e.1 = src.ts ∧ e.2.1 = src.label ∧ subRaises src = false := by
  unfold entriesOf at h
  cases hres : src.result with
  | raises m =>
    rw [hres] at h
    simp [entriesOfRes] at h
  | rstr s =>
    rw [hres] at h
    by_cases hs : s = []
    · simp [entriesOfRes, hs] at h
    · simp only [entriesOfRes, if_neg hs, List.mem_singleton] at h
      subst h
      exact ⟨rfl, rfl, by simp [subRaises, hres]⟩
  | riter cs =>
    rw [hres] at h
    simp only [entriesOfRes] at h
    rcases List.mem_map.mp h with ⟨c, _, hc⟩
    subst hc
    exact ⟨rfl, rfl, by simp [subRaises, hres]⟩

theorem multi_collect_shape (sources : List SubSource) (line : List Char)
    (h : line ∈ multi_collect [] sources) :
    ∃ src ∈ sources, subRaises src = false ∧
      ∃ l, (pyStrip l).isEmpty = false ∧ line = fmtLine src.ts src.label l := by
  unfold multi_collect at h
  by_cases hempty : (sources.map entriesOf).flatten = []
  · rw [if_pos hempty] at h
    simp at h
  · rw [if_neg hempty] at h
    rw [if_pos rfl, List.nil_append] at h
    rcases List.mem_flatten.mp h with ⟨ls, hls, hline⟩
    rcases List.mem_map.mp hls with ⟨e, he, hle⟩
    subst hle
    have hperm : e ∈ (sources.map entriesOf).flatten := by
      have hp := List.mergeSort_perm (sources.map entriesOf).flatten
        (fun a b => strLe a.1 b.1)
      exact hp.mem_iff.mp he
    rcases List.mem_flatten.mp hperm with ⟨es, hes, hee⟩
    rcases List.mem_map.mp hes with ⟨src, hsrc, hesrc⟩
    subst hesrc
    rcases mem_entriesOf src e hee with ⟨hts, hlabel, hok⟩
    rcases List.mem_map.mp (by exact hline) with ⟨l, hl, hfmt⟩
    rcases List.mem_filter.mp hl with ⟨_, hblank⟩
    refine ⟨src, hsrc, hok, l, by simpa using hblank, ?_⟩
    rw [← hfmt, hts, hlabel]

/-- Claim C8: aggregator partial failure — for a `MultiSource` of three
sub-sources of which exactly one raises in `collect()`, the merged stream
equals the stream of the two non-failing sub-sources (the failure is
absorbed, nothing propagates), and every emitted line is a non-blank line of
a non-failing sub-source prefixed `"[timestamp] [label] "`. -/
theorem C8_aggregator_partial_failure (a b c : SubSource)
    (hone : (([a, b, c].filter (fun s => subRaises s)).length = 1)) :
    multi_collect [] [a, b, c]
        = multi_collect [] ([a, b, c].filter (fun s => !subRaises s)) ∧
    ([a, b, c].filter (fun s => !subRaises s)).length = 2 ∧
    ∀ line ∈ multi_collect [] [a, b, c],
      ∃ src ∈ [a, b, c], subRaises src = false ∧
        ∃ l, (pyStrip l).isEmpty = false ∧ line = fmtLine src.ts src.label l := by
  refine ⟨multi_collect_skip [] [a, b, c], ?_, fun line hl => multi_collect_shape _ line hl⟩
  cases ha : subRaises a <;> cases hb : subRaises b <;> cases hc : subRaises c <;>
    simp [List.filter_cons, ha, hb, hc] at hone ⊢

/-- Witness for C8: three concrete sub-sources of which exactly the second
raises. -/
theorem C8_aggregator_partial_failure_witness :
    ((([⟨"app1".toList, "t1".toList, .rstr "E1".toList⟩,
        ⟨"app2".toList, "t2".toList, .raises "down".toList⟩,
        ⟨"app3".toList, "t3".toList, .riter ["E3".toList]⟩] :
          List SubSource).filter (fun s => subRaises s)).length = 1) ∧
    (multi_collect [] [⟨"app1".toList, "t1".toList, .rstr "E1".toList⟩,
        ⟨"app2".toList, "t2".toList, .raises "down".toList⟩,
        ⟨"app3".toList, "t3".toList, .riter ["E3".toList]⟩]
      = multi_collect []
          (([⟨"app1".toList, "t1".toList, .rstr "E1".toList⟩,
             ⟨"app2".toList, "t2".toList, .raises "down".toList⟩,
             ⟨"app3".toList, "t3".toList, .riter ["E3".toList]⟩] :
               List SubSource).filter (fun s => !subRaises s)) ∧
     (([⟨"app1".toList, "t1".toList, .rstr "E1".toList⟩,
        ⟨"app2".toList, "t2".toList, .raises "down".toList⟩,
        ⟨"app3".toList, "t3".toList, .riter ["E3".toList]⟩] :
          List SubSource).filter (fun s => !subRaises s)).length = 2 ∧
     ∀ line ∈ multi_collect [] [⟨"app1".toList, "t1".toList, .rstr "E1".toList⟩,
        ⟨"app2".toList, "t2".toList, .raises "down".toList⟩,
        ⟨"app3".toList, "t3".toList, .riter ["E3".toList]⟩],
       ∃ src ∈ ([⟨"app1".toList, "t1".toList, .rstr "E1".toList⟩,
          ⟨"app2".toList, "t2".toList, .raises "down".toList⟩,
          ⟨"app3".toList, "t3".toList, .riter ["E3".toList]⟩] : List SubSource),
        subRaises src = false ∧
          ∃ l, (pyStrip l).isEmpty = false ∧ line = fmtLine src.ts src.label l) :=
  ⟨by decide, C8_aggregator_partial_failure _ _ _ (by decide)⟩

/-!
Task executors: `TaskExecutor._run_task` / `execute_task_async` in
`db_ops_analyzer/task.py` and `log_analyzer/task.py`.  The stages that can
raise are oracles: `collect` yields data or an exception, `analyze` yields
report text (or an exception for the outer handler's sake).  Per-sink
`save()` failures are caught inside their own loop and touch neither the run
record nor the report registry, so sinks do not appear in the observable
outcome.  Timestamps are parameters.
-/

/-- Python exception values the executors distinguish.  The source raises
`ValueError` for an unknown task and handles `ConnectionError` from
`collect()` specially in the db-ops engine.  `taskNotFoundError` is
modelled from the spec: §4.1 names a `TaskNotFoundError` for the
unknown-task case, but no such exception class exists anywhere in the
source. -/
inductive PyError where
  | valueError (msg : List Char)
  | connectionError (msg : List Char)
  | otherError (msg : List Char)
  | taskNotFoundError (msg : List Char)
deriving DecidableEq

/-- Python `str(e)` on an exception: its message. -/
def errMessage : PyError → List Char
  | .valueError m => m
  | .connectionError m => m
  | .otherError m => m
  | .taskNotFoundError m => m

/-- Whether an exception is a `ConnectionError`. -/
def isConnError : PyError → Bool
  | .connectionError _ => true
  | _ => false

/-- Whether a raised result is the spec's `TaskNotFoundError`. -/
def raisesTaskNotFound : Except PyError Nat → Bool
  | .error (.taskNotFoundError _) => true
  | _ => false

/-- The run record fields the claims observe. -/
structure RunInfo where
  status : List Char
  stage : List Char
  error : Option (List Char)
  report_id : Option (List Char)
deriving DecidableEq

/-- Observable outcome of `_run_task`: the final run record and the entries
added to `self.reports` as (key, content). -/
structure RunOutcome where
  run : RunInfo
  reports : List (List Char × List Char)
deriving DecidableEq

/-- Python `str.title()` on the ASCII range: uppercase a letter that follows
a non-letter, lowercase the other letters. -/
def pyTitleGo : Bool → List Char → List Char
  | _, [] => []
  | prevAlpha, c :: cs =>
    if c.isAlpha then
      (if prevAlpha then c.toLower else c.toUpper) :: pyTitleGo true cs
    else
      c :: pyTitleGo false cs

/-- Python `str.title()`. -/
def pyTitle (s : List Char) : List Char :=
  pyTitleGo false s

/-- The fields of `task_config['source']` the db-ops connection-failure
branch reads into its error report: the plugin `name` and the `host`
parameter (`.get` with default `'Unknown'`).  The `port` and `database`
parameters it also reads never appear in `_format_error_report`'s output. -/
structure SourceCfg where
  name : Option (List Char)
  host : Option (List Char)
deriving DecidableEq

/-- The `error_data` dictionary the db-ops connection-failure branch builds:
database type from the title-cased source plugin name, host from the source
params, empty `slow_queries`/`processlist`/`tables`. -/
def connErrorData (src : SourceCfg) : DbData :=
  { database_type := some (pyTitle (src.name.getD "Unknown".toList)),
    host := some (src.host.getD "Unknown".toList),
    slow_queries := 0,
    processlist := 0,
    tables := 0 }

/-- `TaskExecutor._run_task` of the db-ops engine.  On `ConnectionError`
from `collect()` the run is marked failed, an error report is formatted via
the analyzer's `_format_error_report` and registered under
`{timestamp}_{task_name}`, and `report_id` is set; on any other exception
(from collect or from the analysis stage) the outer handler marks the run
failed with the message and registers nothing; on success the report is
registered under the same key. -/
def db_run_task (task_name ts rt : List Char) (src : SourceCfg)
    (collect : Except PyError DbData) (analyzeResult : Except PyError (List Char)) :
    RunOutcome :=
  match collect with
  | .error (.connectionError m) =>
    let result := format_error_report rt ("数据库连接失败: ".toList ++ m) (connErrorData src)
    let key := ts ++ "_".toList ++ task_name
    { run := { status := "failed".toList, stage := "failed".toList,
               error := some m, report_id := some key },
      reports := [(key, result)] }
  | .error e =>
    { run := { status := "failed".toList, stage := "failed".toList,
               error := some (errMessage e), report_id := none },
      reports := [] }
  | .ok _data =>
    match analyzeResult with
    | .ok result =>
      let key := ts ++ "_".toList ++ task_name
      { run := { status := "completed".toList, stage := "finished".toList,
                 error := none, report_id := some key },
        reports := [(key, result)] }
    | .error e =>
      { run := { status := "failed".toList, stage := "failed".toList,
                 error := some (errMessage e), report_id := none },
        reports := [] }

/-- `TaskExecutor._run_task` of the log-analysis engine: one `except
Exception` handler — every exception from any stage, `ConnectionError`
included, marks the run failed with the message recorded and registers no
report; on success the report is registered under both the
`{timestamp}_{container}` key and the run-id string. -/
def log_run_task (runId : Nat) (task_name container ts : List Char)
    (collect : Except PyError (List Char)) (analyzeResult : Except PyError (List Char)) :
    RunOutcome :=
  match collect with
  | .error e =>
    { run := { status := "failed".toList, stage := "failed".toList,
               error := some (errMessage e), report_id := none },
      reports := [] }
  | .ok _data =>
    match analyzeResult with
    | .ok result =>
      let key := ts ++ "_".toList ++ container
      { run := { status := "completed".toList, stage := "finished".toList,
                 error := none, report_id := some key },
        reports := [(key, result), ((Nat.repr runId).toList, result)] }
    | .error e =>
      { run := { status := "failed".toList, stage := "failed".toList,
                 error := some (errMessage e), report_id := none },
        reports := [] }

/-- Claim C2 as stated is false on the log-analysis engine: a run whose
`collect()` raises `ConnectionError("db unreachable")` is marked failed, but
no error report is created or registered — the single `except Exception`
handler of that engine's `_run_task` records the failure and nothing else. -/
theorem C2_counterexample :
    (log_run_task 1 "t1".toList "all".toList "20240101_000000".toList
        (.error (.connectionError "db unreachable".toList)) (.ok [])).run.status
      = "failed".toList ∧
    (log_run_task 1 "t1".toList "all".toList "20240101_000000".toList
        (.error (.connectionError "db unreachable".toList)) (.ok [])).reports = [] :=
  ⟨rfl, rfl⟩

/-- Claim C2, amended: the connectivity-failure asymmetry holds in the
db-ops engine — `ConnectionError` from `collect()` marks the run failed with
the message recorded and still formats and registers an error report
(visible via report lookup and via the run's `report_id`), while any other
exception (from collection or from the analysis stage) marks the run failed
with its message and registers no report; in the log-analysis engine every
exception, `ConnectionError` included, marks the run failed with the message
recorded and no report is created. -/
theorem C2_connectivity_asymmetry (task_name container ts rt : List Char)
    (src : SourceCfg) (m : List Char) (runId : Nat) (data : DbData)
    (e : PyError) (analyzeOk : List Char) (he : isConnError e = false) :
    ((db_run_task task_name ts rt src (.error (.connectionError m)) (.ok analyzeOk)).run.status
        = "failed".toList ∧
      (db_run_task task_name ts rt src (.error (.connectionError m)) (.ok analyzeOk)).run.error
        = some m ∧
      (db_run_task task_name ts rt src (.error (.connectionError m)) (.ok analyzeOk)).run.report_id
        = some (ts ++ "_".toList ++ task_name) ∧
      (db_run_task task_name ts rt src (.error (.connectionError m)) (.ok analyzeOk)).reports.lookup
          (ts ++ "_".toList ++ task_name)
        = some (format_error_report rt ("数据库连接失败: ".toList ++ m) (connErrorData src))) ∧
    ((db_run_task task_name ts rt src (.error e) (.ok analyzeOk)).run.status = "failed".toList ∧
      (db_run_task task_name ts rt src (.error e) (.ok analyzeOk)).run.error
        = some (errMessage e) ∧
      (db_run_task task_name ts rt src (.error e) (.ok analyzeOk)).reports = []) ∧
    ((db_run_task task_name ts rt src (.ok data) (.error e)).run.status = "failed".toList ∧
      (db_run_task task_name ts rt src (.ok data) (.error e)).run.error = some (errMessage e) ∧
      (db_run_task task_name ts rt src (.ok data) (.error e)).reports = []) ∧
    ((log_run_task runId task_name container ts (.error e) (.ok analyzeOk)).run.status
        = "failed".toList ∧
      (log_run_task runId task_name container ts (.error e) (.ok analyzeOk)).run.error
        = some (errMessage e) ∧
      (log_run_task runId task_name container ts (.error e) (.ok analyzeOk)).reports = []) ∧
    ((log_run_task runId task_name container ts (.error (.connectionError m)) (.ok analyzeOk)).run.status
        = "failed".toList ∧
      (log_run_task runId task_name container ts
          (.error (.connectionError m)) (.ok analyzeOk)).reports = []) := by
  have hdb : db_run_task task_name ts rt src (.error e) (.ok analyzeOk)
      = { run := { status := "failed".toList, stage := "failed".toList,
                   error := some (errMessage e), report_id := none },
          reports := [] } := by
    cases e with
    | connectionError m2 => simp [isConnError] at he
    | valueError m2 => rfl
    | otherError m2 => rfl
    | taskNotFoundError m2 => rfl
  refine ⟨⟨rfl, rfl, rfl, ?_⟩, ?_, ⟨rfl, rfl, rfl⟩, ⟨rfl, rfl, rfl⟩, rfl, rfl⟩
  · simp [db_run_task, List.lookup]
  · rw [hdb]
    exact ⟨rfl, rfl, rfl⟩

/-- Witness for C2 at concrete inputs, with `ValueError` as the non-connection
exception. -/
theorem C2_connectivity_asymmetry_witness :
    isConnError (.valueError "boom".toList) = false ∧
    (((db_run_task "t1".toList "20240101_000000".toList "2024-01-01 00:00:00".toList
          ⟨some "mysql".toList, some "db1".toList⟩
          (.error (.connectionError "db unreachable".toList)) (.ok "R".toList)).run.status
        = "failed".toList ∧
      (db_run_task "t1".toList "20240101_000000".toList "2024-01-01 00:00:00".toList
          ⟨some "mysql".toList, some "db1".toList⟩
          (.error (.connectionError "db unreachable".toList)) (.ok "R".toList)).run.error
        = some "db unreachable".toList ∧
      (db_run_task "t1".toList "20240101_000000".toList "2024-01-01 00:00:00".toList
          ⟨some "mysql".toList, some "db1".toList⟩
          (.error (.connectionError "db unreachable".toList)) (.ok "R".toList)).run.report_id
        = some ("20240101_000000".toList ++ "_".toList ++ "t1".toList) ∧
      (db_run_task "t1".toList "20240101_000000".toList "2024-01-01 00:00:00".toList
          ⟨some "mysql".toList, some "db1".toList⟩
          (.error (.connectionError "db unreachable".toList)) (.ok "R".toList)).reports.lookup
          ("20240101_000000".toList ++ "_".toList ++ "t1".toList)
        = some (format_error_report "2024-01-01 00:00:00".toList
            ("数据库连接失败: ".toList ++ "db unreachable".toList)
            (connErrorData ⟨some "mysql".toList, some "db1".toList⟩))) ∧
    ((db_run_task "t1".toList "20240101_000000".toList "2024-01-01 00:00:00".toList
          ⟨some "mysql".toList, some "db1".toList⟩
          (.error (.valueError "boom".toList)) (.ok "R".toList)).run.status = "failed".toList ∧
      (db_run_task "t1".toList "20240101_000000".toList "2024-01-01 00:00:00".toList
          ⟨some "mysql".toList, some "db1".toList⟩
          (.error (.valueError "boom".toList)) (.ok "R".toList)).run.error
        = some (errMessage (.valueError "boom".toList)) ∧
      (db_run_task "t1".toList "20240101_000000".toList "2024-01-01 00:00:00".toList
          ⟨some "mysql".toList, some "db1".toList⟩
          (.error (.valueError "boom".toList)) (.ok "R".toList)).reports = []) ∧
    ((db_run_task "t1".toList "20240101_000000".toList "2024-01-01 00:00:00".toList
          ⟨some "mysql".toList, some "db1".toList⟩
          (.ok ⟨none, none, 0, 0, 0⟩) (.error (.valueError "boom".toList))).run.status
        = "failed".toList ∧
      (db_run_task "t1".toList "20240101_000000".toList "2024-01-01 00:00:00".toList
          ⟨some "mysql".toList, some "db1".toList⟩
          (.ok ⟨none, none, 0, 0, 0⟩) (.error (.valueError "boom".toList))).run.error
        = some (errMessage (.valueError "boom".toList)) ∧
      (db_run_task "t1".toList "20240101_000000".toList "2024-01-01 00:00:00".toList
          ⟨some "mysql".toList, some "db1".toList⟩
          (.ok ⟨none, none, 0, 0, 0⟩) (.error (.valueError "boom".toList))).reports = []) ∧
    ((log_run_task 7 "t1".toList "all".toList "20240101_000000".toList
          (.error (.valueError "boom".toList)) (.ok "R".toList)).run.status = "failed".toList ∧
      (log_run_task 7 "t1".toList "all".toList "20240101_000000".toList
          (.error (.valueError "boom".toList)) (.ok "R".toList)).run.error
        = some (errMessage (.valueError "boom".toList)) ∧
      (log_run_task 7 "t1".toList "all".toList "20240101_000000".toList
          (.error (.valueError "boom".toList)) (.ok "R".toList)).reports = []) ∧
    ((log_run_task 7 "t1".toList "all".toList "20240101_000000".toList
          (.error (.connectionError "db unreachable".toList)) (.ok "R".toList)).run.status
        = "failed".toList ∧
      (log_run_task 7 "t1".toList "all".toList "20240101_000000".toList
          (.error (.connectionError "db unreachable".toList)) (.ok "R".toList)).reports = [])) :=
  ⟨by decide,
    C2_connectivity_asymmetry "t1".toList "all".toList "20240101_000000".toList
      "2024-01-01 00:00:00".toList ⟨some "mysql".toList, some "db1".toList⟩
      "db unreachable".toList 7 ⟨none, none, 0, 0, 0⟩ (.valueError "boom".toList)
      "R".toList (by decide)⟩

/-!
Task launch: `execute_task_async` in both engines resolves the task
configuration before anything else and raises before a run id is allocated
when it is absent.
-/

/-- A present task configuration.  Its contents do not matter to the
unknown-task claim; the named-task map stores complete pipeline definitions,
so a present value is never falsy. -/
structure TaskConfig where
  source : SourceCfg
deriving DecidableEq

/-- Executor state touched by `execute_task_async`: the run-id counter and
the ids of the registered runs. -/
structure ExecState where
  counter : Nat
  runIds : List Nat
deriving DecidableEq

/-- `TaskExecutor.execute_task_async`: resolve
`override_config or self.config.get_task(task_name)`; raise
`ValueError(f"任务不存在: {task_name}")` when neither is present — before
`_create_run` runs, so no run id is allocated; otherwise allocate a run id
under the lock and start the background thread. -/
def execute_task_async (get_task : List Char → Option TaskConfig)
    (task_name : List Char) (override_config : Option TaskConfig)
    (st : ExecState) : Except PyError Nat × ExecState :=
  match override_config.orElse (fun _ => get_task task_name) with
  | none => (.error (.valueError ("任务不存在: ".toList ++ task_name)), st)
  | some _cfg =>
    (.ok (create_run st.counter).1,
      { counter := (create_run st.counter).2,
        runIds := st.runIds ++ [(create_run st.counter).1] })

/-- Claim C9 as stated is false in one detail: at a concrete unknown task
name the call fails — with `ValueError("任务不存在: foo")`, not with a
`TaskNotFoundError` (no such exception class exists in the source) — and the
executor state is unchanged, so no run id is allocated. -/
theorem C9_counterexample :
    (execute_task_async (fun _ => none) "foo".toList none ⟨0, []⟩).1
        = .error (.valueError "任务不存在: foo".toList) ∧
    raisesTaskNotFound (execute_task_async (fun _ => none) "foo".toList none ⟨0, []⟩).1
        = false ∧
    (execute_task_async (fun _ => none) "foo".toList none ⟨0, []⟩).2 = ⟨0, []⟩ := by
  refine ⟨?_, rfl, rfl⟩
  rfl

/-- Claim C9, amended: calling `execute_task_async` with no override and a
task name the configuration does not know fails with
`ValueError(f"任务不存在: {task_name}")`, and the executor state — counter
and registered runs — is unchanged: no run id is allocated. -/
theorem C9_unknown_task (get_task : List Char → Option TaskConfig)
    (task_name : List Char) (st : ExecState) (h : get_task task_name = none) :
    execute_task_async get_task task_name none st
      = (.error (.valueError ("任务不存在: ".toList ++ task_name)), st) := by
  simp [execute_task_async, h, Option.orElse]

/-- Witness for C9 at a concrete empty configuration. -/
theorem C9_unknown_task_witness :
    (fun _ : List Char => (none : Option TaskConfig)) "foo".toList = none ∧
    execute_task_async (fun _ => none) "foo".toList none ⟨3, [1, 2, 3]⟩
      = (.error (.valueError ("任务不存在: ".toList ++ "foo".toList)), ⟨3, [1, 2, 3]⟩) :=
  ⟨rfl, C9_unknown_task (fun _ => none) "foo".toList ⟨3, [1, 2, 3]⟩ rfl⟩

end DDH
